import Mathlib

/-!
Verification of `lib/ansible/modules/package_facts.py`: a shallow embedding of
the module's per-backend output parsers, its availability/respawn probes and
its selection engine (`main`), together with theorems about the behaviour the
specification describes.

Strings are modelled as `List Char` so that every operation is a structurally
recursive, kernel-computable function; Python string primitives (`split`,
`rsplit`, `splitlines`, `lstrip`, `int(...)`, `str.lower`) are re-implemented
below with their Python semantics.  Python dicts are modelled as insertion
ordered association lists: writing to an existing key updates the value in
place, writing to a fresh key appends at the end, exactly like CPython dicts.
-/

/-- Python strings, modelled as lists of characters. -/
abbrev Str := List Char

/-- Coerce a Lean string literal to the `Str` model. -/
def pstr (s : String) : Str := s.data

/-- Prepend a character to the first piece of a split result
(helper for the split functions below). -/
def consHead (c : Char) : List Str → List Str
  | [] => [[c]]
  | t :: ts => (c :: t) :: ts

/-- `pySplitN c n s` is Python `s.split(c, n)`: split on the first `n`
occurrences of `c`.  `"".split(c, n) = [""]`. -/
def pySplitN (c : Char) : Nat → Str → List Str
  | _, [] => [[]]
  | 0, s => [s]
  | n + 1, x :: xs =>
    if x = c then [] :: pySplitN c n xs else consHead x (pySplitN c (n + 1) xs)

/-- Python `s.rsplit(c, n)`: split on the last `n` occurrences of `c`. -/
def pyRsplitN (c : Char) (n : Nat) (s : Str) : List Str :=
  ((pySplitN c n s.reverse).map List.reverse).reverse

/-- Split at every character satisfying `p`, keeping empty pieces
(the unbounded `str.split(sep)` pattern, generalised to a predicate). -/
def splitOnP (p : Char → Bool) : Str → List Str
  | [] => [[]]
  | x :: xs => if p x then [] :: splitOnP p xs else consHead x (splitOnP p xs)

/-- Python `s.split(c)` with no maxsplit. -/
def splitOnChar (c : Char) (s : Str) : List Str := splitOnP (fun x => x == c) s

/-- The characters Python's `str.split()` / `\s` treat as whitespace (ASCII). -/
def isPySpace (c : Char) : Bool :=
  c == ' ' || c == '\t' || c == '\n' || c == '\r' || c == '\x0b' || c == '\x0c'

/-- Python `s.split()` with no argument: whitespace-delimited tokens, empties
discarded. -/
def wsTokens (s : Str) : List Str := (splitOnP isPySpace s).filter (fun t => !t.isEmpty)

/-- Python `s.splitlines()` (newline-only form; the module's inputs are
`\n`-separated command output). -/
def pySplitlines (s : Str) : List Str :=
  let parts := splitOnChar '\n' s
  match parts.getLast? with
  | some [] => parts.dropLast
  | _ => parts

/-- Python `s.lstrip()`. -/
def pyLstrip (s : Str) : Str := s.dropWhile isPySpace

/-- Python `s.strip()`. -/
def pyStrip (s : Str) : Str := ((s.dropWhile isPySpace).reverse.dropWhile isPySpace).reverse

/-- Fuelled split on a multi-character separator; the fuel is the length of
the string, which suffices because the separator is nonempty. -/
def splitOnSeqAux (sep : Str) : Nat → Str → List Str
  | 0, s => [s]
  | _ + 1, [] => [[]]
  | n + 1, x :: xs =>
    if sep.isPrefixOf (x :: xs) then
      [] :: splitOnSeqAux sep n (List.drop sep.length (x :: xs))
    else consHead x (splitOnSeqAux sep n xs)

/-- Python `s.split(sep)` for a nonempty string separator `sep`. -/
def splitOnSeq (sep : Str) (s : Str) : List Str := splitOnSeqAux sep s.length s

/-- Decimal digit value of a character, if it is `0`..`9`. -/
def digitVal (c : Char) : Option Nat :=
  if '0' ≤ c ∧ c ≤ '9' then some (c.toNat - '0'.toNat) else Option.none

/-- Accumulate an all-digits string into a number; fails at the first
non-digit character. -/
def digitsToNatAux : Nat → Str → Option Nat
  | acc, [] => some acc
  | acc, c :: cs =>
    match digitVal c with
    | some d => digitsToNatAux (acc * 10 + d) cs
    | _ => Option.none

/-- Value of a nonempty all-digits string. -/
def digitsToNat : Str → Option Nat
  | [] => Option.none
  | s => digitsToNatAux 0 s

/-- Python `int(s)`: strip whitespace, optional sign, nonempty digit run
(digit-grouping underscores are not modelled; the module only converts the
pkg `automatic`/`vital` columns, which are `0`/`1`).  `Option.none` models the
`ValueError` that `int` raises on malformed input. -/
def pyInt (s : Str) : Option Int :=
  match pyStrip s with
  | '-' :: ds => (digitsToNat ds).map (fun n => -(n : Int))
  | '+' :: ds => (digitsToNat ds).map (fun n => (n : Int))
  | ds => (digitsToNat ds).map (fun n => (n : Int))

/-- ASCII lowercase of one character (`str.lower` restricted to ASCII, which
covers every package-manager tag the module compares). -/
def lowerChar (c : Char) : Char :=
  if 'A' ≤ c ∧ c ≤ 'Z' then Char.ofNat (c.toNat + 32) else c

/-- Python `s.lower()` on a Lean `String` (manager tags). -/
def lowerString (s : String) : String := ⟨s.data.map lowerChar⟩

/-! ## Python dicts -/

/-- The values that appear in the module's package records. -/
inductive PVal where
  | str (v : Str)
  | bool (v : Bool)
  | int (v : Int)
  | none
  | strs (v : List Str)
deriving DecidableEq

/-- An insertion-ordered Python dict with `Str` keys. -/
abbrev Dict (V : Type) := List (Str × V)

/-- `d[key]` as an `Option` (`Option.none` models `KeyError`). -/
def dget {V : Type} : Dict V → Str → Option V
  | [], _ => Option.none
  | (k, v) :: d, key => if k = key then some v else dget d key

/-- `d[key] = v`: update in place if the key exists (CPython keeps the key's
position), append at the end otherwise. -/
def dset {V : Type} : Dict V → Str → V → Dict V
  | [], key, v => [(key, v)]
  | (k, w) :: d, key, v => if k = key then (k, v) :: d else (k, w) :: dset d key v

/-- `key in d`. -/
def dhas {V : Type} (d : Dict V) (key : Str) : Bool := (dget d key).isSome

/-- `list(d.keys())`. -/
def dkeys {V : Type} (d : Dict V) : List Str := d.map (fun kv => kv.1)

/-- `d.update(n)`. -/
def dupdate {V : Type} (d n : Dict V) : Dict V :=
  n.foldl (fun acc kv => dset acc kv.1 kv.2) d

/-- `KeyError`-raising dict read (`Except.error` models the raise). -/
def dgetE {V : Type} (d : Dict V) (k : Str) : Except Unit V :=
  match dget d k with
  | some v => Except.ok v
  | _ => Except.error ()

/-- Read a dict value that the code then uses as a string. -/
def dgetStr (d : Dict PVal) (k : Str) : Except Unit Str :=
  match dget d k with
  | some (PVal.str s) => Except.ok s
  | _ => Except.error ()

/-- Turn an optional value into a `KeyError`-style result. -/
def exceptOfOption {α : Type} : Option α → Except Unit α
  | some a => Except.ok a
  | _ => Except.error ()

/-! ## Record keys -/

def kName : Str := pstr "name"
def kVersion : Str := pstr "version"
def kRelease : Str := pstr "release"
def kEpoch : Str := pstr "epoch"
def kArch : Str := pstr "arch"
def kRepo : Str := pstr "repo"
def kCategory : Str := pstr "category"
def kOrigin : Str := pstr "origin"
def kInstalled : Str := pstr "installed"
def kIsInstalled : Str := pstr "is_installed"
def kAutomatic : Str := pstr "automatic"
def kVital : Str := pstr "vital"
def kPortEpoch : Str := pstr "port_epoch"
def kRevision : Str := pstr "revision"
def kProvides : Str := pstr "provides"
def kSource : Str := pstr "source"
def kNameCap : Str := pstr "Name"
def kVersionCap : Str := pstr "Version"
def kArchitectureCap : Str := pstr "Architecture"
def kProvidesCap : Str := pstr "Provides"

/-! ## PKG backend (FreeBSD `pkg query`) — `PKG.get_package_details` -/

/-- `PKG.atoms`: the fixed column order of the tab-separated query output. -/
def PKG_atoms : List Str :=
  [pstr "name", pstr "version", pstr "origin", pstr "installed", pstr "automatic",
   pstr "arch", pstr "category", pstr "prefix", pstr "vital"]

/-- `PKG.get_package_details`.  The flags mirror the instance state
(`_need_package_details`, `_all_available`); this parser never reads them.
`Except.error` models an uncaught Python exception (`ValueError` from
`int(...)`). -/
def PKG_get_package_details (needDetails allAvailable : Bool) (package : Str) :
    Except Unit (Dict PVal) := do
  let mut pkg : Dict PVal :=
    (PKG_atoms.zip (splitOnChar '\t' package)).map (fun kv => (kv.1, PVal.str kv.2))
  if dhas pkg kArch then
    let a ← dgetStr pkg kArch
    -- pkg['arch'].split(':')[2], IndexError → pass
    match (splitOnChar ':' a)[2]? with
    | some seg => pkg := dset pkg kArch (PVal.str seg)
    | _ => pure ()
  if dhas pkg kAutomatic then
    let s ← dgetStr pkg kAutomatic
    match pyInt s with
    | some n => pkg := dset pkg kAutomatic (PVal.bool (n != 0))
    | _ => throw ()
  if dhas pkg kCategory then
    let c ← dgetStr pkg kCategory
    pkg := dset pkg kCategory (PVal.str ((pySplitN '/' 1 c).headD []))
  if dhas pkg kVersion then
    let v ← dgetStr pkg kVersion
    if ',' ∈ v then
      match pySplitN ',' 1 v with
      | [a, b] => pkg := dset (dset pkg kVersion (PVal.str a)) kPortEpoch (PVal.str b)
      | _ => throw ()
    else
      pkg := dset pkg kPortEpoch (PVal.int 0)
    let v2 ← dgetStr pkg kVersion
    if '_' ∈ v2 then
      match pySplitN '_' 1 v2 with
      | [a, b] => pkg := dset (dset pkg kVersion (PVal.str a)) kRevision (PVal.str b)
      | _ => throw ()
    else
      pkg := dset pkg kRevision (PVal.str (pstr "0"))
  if dhas pkg kVital then
    let s ← dgetStr pkg kVital
    match pyInt s with
    | some n => pkg := dset pkg kVital (PVal.bool (n != 0))
    | _ => throw ()
  return pkg

/-! ## YUM backend — `YUM.get_package_details`

The compiled pattern is
`^\s*([-a-zA-Z0-9_.+]+)\s+([-a-zA-Z0-9_:.+~]+)\s+([-a-zA-Z0-9_:@]+)\s*$`
(with `re.IGNORECASE`, which is inert because every class already lists both
cases).  None of the three character classes contains a whitespace character,
so the anchored pattern matches exactly when the line splits into exactly
three whitespace-delimited tokens whose characters lie in the respective
classes; `yumMatch` below implements that equivalent form. -/

def isAsciiAlphaNum (c : Char) : Bool :=
  ('a' ≤ c && c ≤ 'z') || ('A' ≤ c && c ≤ 'Z') || ('0' ≤ c && c ≤ '9')

def yumC1 (c : Char) : Bool :=
  c == '-' || isAsciiAlphaNum c || c == '_' || c == '.' || c == '+'

def yumC2 (c : Char) : Bool :=
  c == '-' || isAsciiAlphaNum c || c == '_' || c == ':' || c == '.' || c == '+' || c == '~'

def yumC3 (c : Char) : Bool :=
  c == '-' || isAsciiAlphaNum c || c == '_' || c == ':' || c == '@'

/-- The three capture groups of the yum line pattern, when the line matches. -/
def yumMatch (line : Str) : Option (Str × Str × Str) :=
  match wsTokens line with
  | [a, b, c] => if a.all yumC1 && b.all yumC2 && c.all yumC3 then some (a, b, c) else Option.none
  | _ => Option.none

/-- `l[0], l[1]` when `len(l) == 2`, else `(dflt, '')` — the shape of the
yum parser's rsplit handling. -/
def yumSplit2 (l : List Str) (dflt : Str) : Str × Str :=
  match l with
  | [a, b] => (a, b)
  | _ => (dflt, [])

/-- `l[0], l[1]` when `len(l) == 2`, else `('', dflt)` — the shape of the
yum parser's epoch split handling. -/
def yumEpochSplit (l : List Str) (dflt : Str) : Str × Str :=
  match l with
  | [e, t] => (e, t)
  | _ => (([] : Str), dflt)

/-- Body of `YUM.get_package_details` after a successful pattern match.
Every key is written exactly once, so the dict builds up as a plain append
chain. -/
def yumDetailsCore (needDetails : Bool) (first verFull repo : Str) : Dict PVal :=
  let pa := yumSplit2 (pyRsplitN '.' 1 first) first
  let pkg := pa.1
  let arch := pa.2
  let res : Dict PVal := [(kName, PVal.str pkg)]
  if needDetails = false then res else
  let res := if arch = [] then res else res ++ [(kArch, PVal.str arch)]
  let et := yumEpochSplit (pySplitN ':' 1 verFull) verFull
  let epoch := et.1
  let verTail := et.2
  let res := if epoch = [] then res else res ++ [(kEpoch, PVal.str epoch)]
  let vr := yumSplit2 (pyRsplitN '-' 1 verTail) verTail
  let ver := vr.1
  let release := vr.2
  let res := if release = [] then res else res ++ [(kRelease, PVal.str release)]
  res ++ [(kVersion, PVal.str ver), (kRepo, PVal.str repo)]

/-- `YUM.get_package_details`: unparsable lines yield an empty dict. -/
def YUM_get_package_details (needDetails : Bool) (package : Str) : Dict PVal :=
  match yumMatch package with
  | some (first, verFull, repo) => yumDetailsCore needDetails first verFull repo
  | _ => []

/-- The same parser with the version column split on the LAST `:` instead of
the first, i.e. the decomposition as the specification words it.  Declared
only to exhibit, by evaluation, where the specification's wording diverges
from the code. -/
def yumDetailsCore_specLastColon (needDetails : Bool) (first verFull repo : Str) : Dict PVal :=
  let pa := yumSplit2 (pyRsplitN '.' 1 first) first
  let pkg := pa.1
  let arch := pa.2
  let res : Dict PVal := [(kName, PVal.str pkg)]
  if needDetails = false then res else
  let res := if arch = [] then res else res ++ [(kArch, PVal.str arch)]
  let et := yumEpochSplit (pyRsplitN ':' 1 verFull) verFull
  let epoch := et.1
  let verTail := et.2
  let res := if epoch = [] then res else res ++ [(kEpoch, PVal.str epoch)]
  let vr := yumSplit2 (pyRsplitN '-' 1 verTail) verTail
  let ver := vr.1
  let release := vr.2
  let res := if release = [] then res else res ++ [(kRelease, PVal.str release)]
  res ++ [(kVersion, PVal.str ver), (kRepo, PVal.str repo)]

/-- Spec-worded variant of `YUM_get_package_details` (last-`:` epoch split). -/
def YUM_get_package_details_specLastColon (needDetails : Bool) (package : Str) : Dict PVal :=
  match yumMatch package with
  | some (first, verFull, repo) => yumDetailsCore_specLastColon needDetails first verFull repo
  | _ => []

/-! ## RPM backend — `RPM.get_package_details` -/

/-- The rpm header fields the parser reads from a database match object
(the `rpm` binding is an external collaborator; `RPMTAG_EPOCH` may be
Python `None`, hence `PVal`). -/
structure RpmPkg where
  name : Str
  version : Str
  release : Str
  epoch : PVal
  arch : Str
deriving DecidableEq

/-- `RPM.get_package_details`.  `res.update(...)` with fresh keys appends in
dict-literal order. -/
def RPM_get_package_details (needDetails : Bool) (package : RpmPkg) : Dict PVal :=
  let res : Dict PVal := [(kName, PVal.str package.name)]
  if needDetails then
    res ++ [(kVersion, PVal.str package.version), (kRelease, PVal.str package.release),
            (kEpoch, package.epoch), (kArch, PVal.str package.arch)]
  else res

/-! ## APT backend — `APT.get_package_details` -/

/-- The fields read from an `apt` cache version object
(`installed.version/architecture/section/origins[0].origin`). -/
structure AptVer where
  version : Str
  architecture : Str
  sect : Str
  origin0 : Str
deriving DecidableEq

/-- One `apt` cache entry: the `is_installed` flag and the installed
candidate (`None` when the package is not installed). -/
structure AptPkgData where
  isInstalled : Bool
  installed : Option AptVer
deriving DecidableEq

/-- `APT.get_package_details`; the cache is an external collaborator, passed
as a lookup function.  Reading `.version` from a `None` installed candidate
raises (`Except.error`). -/
def APT_get_package_details (needDetails allAvailable : Bool) (cache : Str → AptPkgData)
    (package : Str) : Except Unit (Dict PVal) := do
  if needDetails = false then
    return [(kName, PVal.str package)]
  let pkgData := cache package
  let res : Dict PVal := [(kName, PVal.str package)]
  if allAvailable then
    return dset res kIsInstalled (PVal.bool pkgData.isInstalled)
  else
    match pkgData.installed with
    | some acPkg =>
        return res ++ [(kVersion, PVal.str acPkg.version), (kArch, PVal.str acPkg.architecture),
                       (kCategory, PVal.str acPkg.sect), (kOrigin, PVal.str acPkg.origin0)]
    | _ => throw ()

/-! ## PACMAN backend — `PACMAN.get_package_details`

The per-line pattern is `([\w ]*[\w]) +: (.*)` under `re.match`.  The key
class `[\w ]` cannot contain `:`, so a match, when it exists, is anchored at
the first `:` of the line: everything before it must be word characters and
spaces with at least one trailing space, and the `:` must be followed by one
literal space.  `pacmanLineMatch` implements that equivalent form. -/

def isWordChar (c : Char) : Bool := isAsciiAlphaNum c || c == '_'

/-- `(key, value)` of a pacman info line when the detail pattern matches. -/
def pacmanLineMatch (line : Str) : Option (Str × Str) :=
  match pySplitN ':' 1 line with
  | [pre, post] =>
      let key := (pre.reverse.dropWhile (fun c => c == ' ')).reverse
      match post with
      | ' ' :: value =>
          if key ≠ [] ∧ key.length < pre.length ∧ key.all (fun c => isWordChar c || c == ' ')
          then some (key, value) else Option.none
      | _ => Option.none
  | _ => Option.none

/-- The line loop of `PACMAN.get_package_details`: matched lines set a new
detail, unmatched lines are continuation lines appended (with a two-space
separator) to the previous detail.  An unmatched line before any matched one
looks up `raw_pkg_details[None]` — a `KeyError`, modelled as `Except.error`. -/
def pacmanFold : List Str → Dict Str → Option Str → Except Unit (Dict Str)
  | [], raw, _ => Except.ok raw
  | line :: rest, raw, lastDetail =>
    match pacmanLineMatch line with
    | some (k, v) => pacmanFold rest (dset raw k v) (some k)
    | _ =>
      match lastDetail with
      | some k =>
          match dget raw k with
          | some old => pacmanFold rest (dset raw k (old ++ pstr "  " ++ pyLstrip line)) (some k)
          | _ => Except.error ()
      | _ => Except.error ()

/-- `PACMAN.get_package_details`.  The flags mirror the instance state; this
parser never reads them.  Missing `Provides`/`Name`/`Version`/`Architecture`
keys raise `KeyError` (`Except.error`). -/
def PACMAN_get_package_details (needDetails allAvailable : Bool) (package : Str) :
    Except Unit (Dict PVal) := do
  let raw ← pacmanFold (pySplitlines package) [] Option.none
  let provRaw ← exceptOfOption (dget raw kProvidesCap)
  let provides : PVal :=
    if provRaw ≠ pstr "None" then
      PVal.strs ((splitOnSeq (pstr "  ") provRaw).map (fun p => (splitOnChar '=' p).headD []))
    else PVal.none
  let nm ← exceptOfOption (dget raw kNameCap)
  let ver ← exceptOfOption (dget raw kVersionCap)
  let ar ← exceptOfOption (dget raw kArchitectureCap)
  return [(kName, PVal.str nm), (kVersion, PVal.str ver), (kArch, PVal.str ar),
          (kProvides, provides)]

/-! ## PORTAGE backend — `PORTAGE.get_package_details` -/

/-- `PORTAGE.atoms` (the `sufixes` typo is the source's). -/
def PORTAGE_atoms : List Str :=
  [pstr "category", pstr "name", pstr "version", pstr "ebuild_revision", pstr "slots",
   pstr "prefixes", pstr "sufixes"]

/-- `PORTAGE.get_package_details`.  The flags mirror the instance state; this
parser never reads them. -/
def PORTAGE_get_package_details (needDetails allAvailable : Bool) (package : Str) : Dict PVal :=
  (PORTAGE_atoms.zip (wsTokens package)).map (fun kv => (kv.1, PVal.str kv.2))

/-! ## APK backend — `APK.get_package_details` -/

/-- `APK.get_package_details`. -/
def APK_get_package_details (needDetails allAvailable : Bool) (package : Str) : Dict PVal :=
  let splitted := splitOnChar ' ' package
  let splFirst := splitted.headD []
  let nvr := pyRsplitN '-' 2 splFirst
  let ret : Dict PVal := [(kName, PVal.str (nvr.headD []))]
  if needDetails then
    let ret := match nvr[1]? with
      | some v => dset ret kVersion (PVal.str v)
      | _ => ret
    let ret := match nvr[2]? with
      | some r => dset ret kRelease (PVal.str r)
      | _ => ret
    if allAvailable then
      dset ret kInstalled (PVal.bool (splitted.getLastD [] == pstr "[installed]"))
    else ret
  else ret

/-! ## The shared catalog driver -/

/-- A catalog: package name → list of records, in insertion order. -/
abbrev Catalog := Dict (List (Dict PVal))

/-- Modelled from the spec: the `get_packages` driver of the shared
package-manager base class (`ansible.module_utils.facts.packages`) is not
part of this module's file.  Per the specification it tags each record with
its backend (`source`), merges records into the catalog keyed by `name`
(creating the entry or appending), and silently drops the empty records that
unparsable rpm/yum lines produce.  The parsers signal failure by raising;
the driver does not catch, so a raised entry aborts the whole backend
(`Except.error`). -/
def get_packages_step (sourceTag : Str) (details : Str → Except Unit (Dict PVal))
    (installed : Catalog) (package : Str) : Except Unit Catalog := do
  let pd ← details package
  if pd.isEmpty then
    pure installed
  else
    let pd := dset pd kSource (PVal.str sourceTag)
    match dget pd kName with
    | some (PVal.str n) =>
        pure (match dget installed n with
              | some l => dset installed n (l ++ [pd])
              | _ => dset installed n [pd])
    | _ => Except.error ()

def get_packages (sourceTag : Str) (details : Str → Except Unit (Dict PVal))
    (entries : List Str) : Except Unit Catalog :=
  entries.foldlM (get_packages_step sourceTag details) []

/-! ## Availability probes and the respawn protocol -/

/-- Outcome of `is_available`: either the process is replaced by a respawn
under another interpreter (the call never returns), or it returns a boolean. -/
inductive AvailOutcome where
  | respawn (interpreterPath : String)
  | ret (available : Bool)
deriving DecidableEq

/-- The environment `RPM.is_available` observes: instance state, whether the
`rpm` python binding imports, whether the `rpm` CLI exists (`get_bin_path`
raises `ValueError` otherwise), `has_respawned()`, and what
`probe_interpreters_for_module` would find. -/
structure RpmEnv where
  allAvailable : Bool
  haveLib : Bool
  rpmCliPresent : Bool
  alreadyRespawned : Bool
  probeFinds : Option String
deriving DecidableEq

/-- `RPM.is_available`: the availability outcome, paired with whether a
missing-bindings warning was emitted. -/
def RPM_is_available (e : RpmEnv) : AvailOutcome × Bool :=
  if e.allAvailable then (AvailOutcome.ret false, false)
  else if e.rpmCliPresent then
    if e.haveLib = false ∧ e.alreadyRespawned = false then
      match e.probeFinds with
      | some ip => (AvailOutcome.respawn ip, false)
      | _ => (AvailOutcome.ret e.haveLib, !e.haveLib)
    else (AvailOutcome.ret e.haveLib, !e.haveLib)
  else (AvailOutcome.ret e.haveLib, false)

/-- The environment `APT.is_available` observes. -/
structure AptEnv where
  haveLib : Bool
  aptPresent : Bool
  aptGetPresent : Bool
  aptitudePresent : Bool
  alreadyRespawned : Bool
  probeFinds : Option String
deriving DecidableEq

/-- The first of `apt`, `apt-get`, `aptitude` that `get_bin_path` finds. -/
def APT_first_exe (e : AptEnv) : Option String :=
  if e.aptPresent then some "apt"
  else if e.aptGetPresent then some "apt-get"
  else if e.aptitudePresent then some "aptitude"
  else Option.none

/-- `APT.is_available`: outcome paired with whether a missing-bindings
warning was emitted. -/
def APT_is_available (e : AptEnv) : AvailOutcome × Bool :=
  if e.haveLib then (AvailOutcome.ret true, false)
  else
    match APT_first_exe e with
    | some _ =>
        if e.alreadyRespawned = false then
          match e.probeFinds with
          | some ip => (AvailOutcome.respawn ip, false)
          | _ => (AvailOutcome.ret false, true)
        else (AvailOutcome.ret false, true)
    | _ => (AvailOutcome.ret false, false)

/-! ## Selection engine — `main` -/

/-- What one backend attempt does, abstracting the host system: an exception
during construction / flag setting / `is_available` (`exnEarly`),
`is_available()` returning false (`notAvail`), or `is_available()` true
followed by `get_packages()` returning a catalog or raising (`okAvail`). -/
inductive Outcome where
  | exnEarly
  | notAvail
  | okAvail (r : Except Unit Catalog)

/-- Does this outcome trigger the loop's except-branch warning? -/
def outcomeWarns : Outcome → Bool
  | Outcome.exnEarly => true
  | Outcome.okAvail (Except.error _) => true
  | _ => false

/-- Does this outcome increment `found`?  (`found += 1` happens as soon as
`is_available()` returns true, before `get_packages()` runs.) -/
def isFound : Outcome → Bool
  | Outcome.okAvail _ => true
  | _ => false

/-- The selection loop's mutable state.  `attempts` is instrumentation: the
tags for which a backend was actually constructed and probed, in order. -/
structure LoopState where
  found : Nat
  seen : List String
  packages : Catalog
  warnings : List String
  attempts : List String
deriving DecidableEq

def initLoopState : LoopState :=
  { found := 0, seen := [], packages := [], warnings := [], attempts := [] }

/-- The loop warns about a failed backend only when its tag is literally in
the originally requested `manager` parameter (warnings are recorded as the
offending tag; the message text adds only the exception's own text). -/
def warnIf (requested : List String) (pkgmgr : String) : List String :=
  if pkgmgr ∈ requested then [pkgmgr] else []

/-- Apply one backend attempt's outcome to the state (the body of the
`try`/`except` in `main`'s loop). -/
def applyOutcome (requested : List String) (pkgmgr : String) (st : LoopState) :
    Outcome → LoopState
  | Outcome.exnEarly => { st with warnings := st.warnings ++ warnIf requested pkgmgr }
  | Outcome.notAvail => st
  | Outcome.okAvail (Except.ok pkgs) =>
      { st with found := st.found + 1, packages := dupdate st.packages pkgs }
  | Outcome.okAvail (Except.error _) =>
      { st with found := st.found + 1, warnings := st.warnings ++ warnIf requested pkgmgr }

/-- The `for pkgmgr in managers` loop of `main`: break once something was
found under the `first` strategy, skip tags already seen, otherwise attempt
the backend. -/
def selectLoop (strategy : String) (requested : List String) (beh : String → Outcome) :
    List String → LoopState → LoopState
  | [], st => st
  | pkgmgr :: rest, st =>
    if st.found ≠ 0 ∧ strategy = "first" then st
    else if pkgmgr ∈ st.seen then selectLoop strategy requested beh rest st
    else
      selectLoop strategy requested beh rest
        (applyOutcome requested pkgmgr
          { st with seen := pkgmgr :: st.seen, attempts := st.attempts ++ [pkgmgr] }
          (beh pkgmgr))

/-- Modelled from the spec: `get_all_pkg_managers()` (in
`ansible.module_utils.facts.packages`, not part of this module's file)
registers the package-manager classes this module defines, keyed by
lowercased class name, in definition order. -/
def packageManagerNames : List String :=
  ["rpm", "apt", "pacman", "pkg", "portage", "apk", "yum"]

/-- `managers = [x.lower() for x in module.params['manager']]`. -/
def lowerManagers (params : List String) : List String := params.map lowerString

/-- The `auto` expansion: append every known tag, then `managers.remove('auto')`
(which removes only the first occurrence). -/
def expandAuto (known : List String) (ms : List String) : List String :=
  if "auto" ∈ ms then (ms ++ known).erase "auto" else ms

/-- `set(managers).difference(package_manager_names)`, determinised to
first-occurrence order (Python set iteration order is unspecified). -/
def computeUnsupportedAux (seenTags : List String) : List String → List String
  | [] => []
  | x :: xs =>
    if x ∈ seenTags then computeUnsupportedAux seenTags xs
    else x :: computeUnsupportedAux (x :: seenTags) xs

def computeUnsupported (known : List String) (params : List String) : List String :=
  computeUnsupportedAux []
    ((expandAuto known (lowerManagers params)).filter (fun m => decide (m ∉ known)))

/-- The rpm-over-yum priority rewrite: only in `auto` mode with the `first`
strategy and both tags present does `main` move `rpm` to the front
(`managers.remove('rpm'); managers.insert(0, 'rpm')`). -/
def prioritize (auto : Bool) (strategy : String) (managers : List String) : List String :=
  if auto = true ∧ "rpm" ∈ managers ∧ "yum" ∈ managers ∧ strategy = "first" then
    "rpm" :: managers.erase "rpm"
  else managers

/-- The candidate list `main` iterates: lowered params, `auto` expanded,
priority rule applied. -/
def mainCandidates (known params : List String) (strategy : String) : List String :=
  prioritize (decide ("auto" ∈ lowerManagers params)) strategy
    (expandAuto known (lowerManagers params))

def autoDetectFailMsg : String :=
  "Could not auto detect a usable package manager, check warnings for details."

/-- `', '.join(tags)`. -/
def joinCommaSp : List String → String
  | [] => ""
  | [x] => x
  | x :: xs => x ++ ", " ++ joinCommaSp xs

def unsupportedMsg (tags : List String) : String :=
  "Unsupported package managers requested: " ++ joinCommaSp tags

/-- The final-failure message (`%s` of a Python list renders brackets and
quotes around the tags; here the tags are joined plainly). -/
def noManagerFoundMsg (managers : List String) : String :=
  "Could not detect a supported package manager from the following list: "
    ++ joinCommaSp managers
    ++ ", or the required Python library is not installed. Check warnings for details."

/-- `module.fail_json` versus `module.exit_json` with the facts dict. -/
inductive MainOutcome where
  | failed (msg : String)
  | succeeded (resultKey : String) (packages : Catalog)
deriving DecidableEq

/-- `main()`: validation, expansion, prioritisation, the selection loop and
finalisation.  Returns the outcome together with the final loop state (the
initial state when validation fails before the loop).  `known` abstracts
`get_all_pkg_managers()`, `beh` abstracts what each backend does on this
host. -/
def mainRun (known params : List String) (strategy : String)
    (allAvailable needPackageDetails : Bool) (beh : String → Outcome) :
    MainOutcome × LoopState :=
  let unsup := computeUnsupported known params
  if unsup ≠ [] then
    (MainOutcome.failed
      (if "auto" ∈ params then autoDetectFailMsg else unsupportedMsg unsup),
     initLoopState)
  else
    let managers := mainCandidates known params strategy
    let final := selectLoop strategy params beh managers initLoopState
    if final.found = 0 then (MainOutcome.failed (noManagerFoundMsg managers), final)
    else
      (MainOutcome.succeeded (if allAvailable then "available_packages" else "packages")
        final.packages, final)

/-! ## Concrete inputs used by the scenario claims -/

/-- The pkg scenario line of the specification. -/
def c1line : Str := pstr "foo\t1.2,1_3\torigin\t1\t0\t:freebsd:x86_64\tports/foo\t/usr/local\t0"

/-! ## Theorems -/

/-- C1 (counterexample): parsing the pkg scenario line does NOT give
`port_epoch = "1"` / `revision = "3"`.  The code splits the version column on
`,` first (`"1.2,1_3"` → version `"1.2"`, port_epoch `"1_3"`), and only then
looks for `_` inside the remaining version `"1.2"`, which has none, so the
revision defaults to `"0"`. -/
theorem c1_counterexample :
    (PKG_get_package_details true false c1line).toOption.bind (fun d => dget d kPortEpoch)
        ≠ some (PVal.str (pstr "1"))
    ∧ (PKG_get_package_details true false c1line).toOption.bind (fun d => dget d kRevision)
        ≠ some (PVal.str (pstr "3")) := by
  decide

/-- C1 (amended): for the pkg backend, parsing the raw tab-separated line
`"foo\t1.2,1_3\torigin\t1\t0\t:freebsd:x86_64\tports/foo\t/usr/local\t0"`
with `need_package_details` true yields the record fields
`{name: "foo", version: "1.2", port_epoch: "1_3", revision: "0",
arch: "x86_64", category: "ports", automatic: false, vital: false}`. -/
theorem c1_amended :
    (PKG_get_package_details true false c1line).toOption.bind (fun d => dget d kName)
        = some (PVal.str (pstr "foo"))
    ∧ (PKG_get_package_details true false c1line).toOption.bind (fun d => dget d kVersion)
        = some (PVal.str (pstr "1.2"))
    ∧ (PKG_get_package_details true false c1line).toOption.bind (fun d => dget d kPortEpoch)
        = some (PVal.str (pstr "1_3"))
    ∧ (PKG_get_package_details true false c1line).toOption.bind (fun d => dget d kRevision)
        = some (PVal.str (pstr "0"))
    ∧ (PKG_get_package_details true false c1line).toOption.bind (fun d => dget d kArch)
        = some (PVal.str (pstr "x86_64"))
    ∧ (PKG_get_package_details true false c1line).toOption.bind (fun d => dget d kCategory)
        = some (PVal.str (pstr "ports"))
    ∧ (PKG_get_package_details true false c1line).toOption.bind (fun d => dget d kAutomatic)
        = some (PVal.bool false)
    ∧ (PKG_get_package_details true false c1line).toOption.bind (fun d => dget d kVital)
        = some (PVal.bool false) := by
  decide

/-- C5: the yum line `"bash.x86_64  4.4.20-1.el8  @BaseOS"` parses to exactly
`{name: "bash", arch: "x86_64", release: "1.el8", version: "4.4.20",
repo: "@BaseOS"}`, with no epoch field (the version column has no `:`). -/
theorem c5_yum_line :
    YUM_get_package_details true (pstr "bash.x86_64  4.4.20-1.el8  @BaseOS") =
      [(kName, PVal.str (pstr "bash")), (kArch, PVal.str (pstr "x86_64")),
       (kRelease, PVal.str (pstr "1.el8")), (kVersion, PVal.str (pstr "4.4.20")),
       (kRepo, PVal.str (pstr "@BaseOS"))]
    ∧ dget (YUM_get_package_details true (pstr "bash.x86_64  4.4.20-1.el8  @BaseOS")) kEpoch
        = Option.none := by
  decide

/-- C3 (counterexample): with `need_package_details` false the pkg backend's
parser does NOT return only the name field — it never reads the flag, so the
line `"foo\t1.0"` still produces version/port_epoch/revision fields. -/
theorem c3_counterexample :
    (PKG_get_package_details false false (pstr "foo\t1.0")).toOption.map dkeys
        = some [kName, kVersion, kPortEpoch, kRevision]
    ∧ (PKG_get_package_details false false (pstr "foo\t1.0")).toOption.map dkeys
        ≠ some [kName] := by
  decide

/-- C3 (amended): when `need_package_details` is false, the rpm, apt, apk
and yum parsers return a record containing only the name field — apt returns
only `{name}` even in all-available mode (no `is_installed`) — while the
pacman, pkg and portage parsers never read the flag and return their full
records. -/
theorem c3_amended (aa : Bool) (p : RpmPkg) (cache : Str → AptPkgData)
    (aptName apkLine yumLine pacBlk pkgLine portLine : Str) :
    dkeys (RPM_get_package_details false p) = [kName]
    ∧ APT_get_package_details false aa cache aptName = Except.ok [(kName, PVal.str aptName)]
    ∧ dkeys (APK_get_package_details false aa apkLine) = [kName]
    ∧ (YUM_get_package_details false yumLine = []
        ∨ dkeys (YUM_get_package_details false yumLine) = [kName])
    ∧ PACMAN_get_package_details false aa pacBlk = PACMAN_get_package_details true aa pacBlk
    ∧ PKG_get_package_details false aa pkgLine = PKG_get_package_details true aa pkgLine
    ∧ PORTAGE_get_package_details false aa portLine
        = PORTAGE_get_package_details true aa portLine := by
  refine ⟨?_, ?_, ?_, ?_, rfl, rfl, rfl⟩
  · simp [RPM_get_package_details, dkeys]
  · rfl
  · simp [APK_get_package_details, dkeys]
  · match h : yumMatch yumLine with
    | Option.none => exact Or.inl (by simp [YUM_get_package_details, h])
    | some (f, v, r) =>
        exact Or.inr (by simp [YUM_get_package_details, h, yumDetailsCore, dkeys])

/-- C4: in `auto` mode with the `first` strategy and both `rpm` and `yum`
among the candidates, the prioritisation step moves `rpm` to the front (so
`rpm` is attempted before `yum`); in every other configuration it leaves the
candidate list unchanged. -/
theorem c4_priority (auto : Bool) (strategy : String) (managers : List String) :
    (auto = true → strategy = "first" → "rpm" ∈ managers → "yum" ∈ managers →
        prioritize auto strategy managers = "rpm" :: managers.erase "rpm"
        ∧ "yum" ∈ prioritize auto strategy managers
        ∧ (prioritize auto strategy managers).indexOf "rpm" = 0
        ∧ 0 < (prioritize auto strategy managers).indexOf "yum")
    ∧ (¬(auto = true ∧ "rpm" ∈ managers ∧ "yum" ∈ managers ∧ strategy = "first") →
        prioritize auto strategy managers = managers) := by
  constructor
  · intro ha hs hr hy
    have hcond : auto = true ∧ "rpm" ∈ managers ∧ "yum" ∈ managers ∧ strategy = "first" :=
      ⟨ha, hr, hy, hs⟩
    have hne : "yum" ≠ "rpm" := by decide
    have hmem : "yum" ∈ managers.erase "rpm" := (List.mem_erase_of_ne hne).mpr hy
    have hp : prioritize auto strategy managers = "rpm" :: managers.erase "rpm" := by
      unfold prioritize
      rw [if_pos hcond]
    refine ⟨hp, ?_, ?_, ?_⟩
    · rw [hp]
      exact List.mem_cons_of_mem _ hmem
    · rw [hp]
      simp [List.indexOf_cons_self]
    · rw [hp, List.indexOf_cons_ne _ (by decide : ("rpm" : String) ≠ "yum")]
      exact Nat.succ_pos _
  · intro hcond
    simp only [prioritize, if_neg hcond]

/-- C4 (witness): with candidates `["rpm", "yum", "pacman"]` under
`auto`/`first` the list keeps `rpm` first; with `["yum", "pacman"]` (no
`rpm`) the step changes nothing. -/
theorem c4_priority_witness :
    prioritize true "first" ["rpm", "yum", "pacman"] = ["rpm", "yum", "pacman"]
    ∧ 0 < (prioritize true "first" ["rpm", "yum", "pacman"]).indexOf "yum"
    ∧ prioritize true "first" ["yum", "pacman"] = ["yum", "pacman"] := by
  have h1 := (c4_priority true "first" ["rpm", "yum", "pacman"]).1 rfl rfl
      (by decide) (by decide)
  have h2 := (c4_priority true "first" ["yum", "pacman"]).2 (by decide)
  exact ⟨by rw [h1.1]; decide, h1.2.2.2, h2⟩

/-- C9: in both availability probes, `respawn_module` is reached only when
`has_respawned()` is false; a process that has already respawned always gets
a plain boolean availability answer (false whenever the binding is missing),
so escalation cannot happen twice. -/
theorem c9_respawn_once (e : RpmEnv) (a : AptEnv) :
    (∀ ip, (RPM_is_available e).1 = AvailOutcome.respawn ip → e.alreadyRespawned = false)
    ∧ (e.alreadyRespawned = true →
        (RPM_is_available e).1 = AvailOutcome.ret (!e.allAvailable && e.haveLib))
    ∧ (∀ ip, (APT_is_available a).1 = AvailOutcome.respawn ip → a.alreadyRespawned = false)
    ∧ (a.alreadyRespawned = true → (APT_is_available a).1 = AvailOutcome.ret a.haveLib) := by
  obtain ⟨aa, lib, cli, resp, probe⟩ := e
  obtain ⟨alib, x1, x2, x3, aresp, aprobe⟩ := a
  refine ⟨?_, ?_, ?_, ?_⟩
  · cases aa <;> cases lib <;> cases cli <;> cases resp <;> cases probe <;>
      simp [RPM_is_available]
  · cases aa <;> cases lib <;> cases cli <;> cases resp <;> cases probe <;>
      simp [RPM_is_available]
  · cases alib <;> cases x1 <;> cases x2 <;> cases x3 <;> cases aresp <;> cases aprobe <;>
      simp [APT_is_available, APT_first_exe]
  · cases alib <;> cases x1 <;> cases x2 <;> cases x3 <;> cases aresp <;> cases aprobe <;>
      simp [APT_is_available, APT_first_exe]

/-- C9 (witness): a concrete already-respawned environment without the
binding gets `ret false` from both probes instead of another respawn. -/
theorem c9_respawn_once_witness :
    (RPM_is_available ⟨false, false, true, true, some "/usr/bin/python3"⟩).1
        = AvailOutcome.ret false
    ∧ (APT_is_available ⟨false, true, false, false, true, some "/usr/bin/python3"⟩).1
        = AvailOutcome.ret false := by
  have h := c9_respawn_once ⟨false, false, true, true, some "/usr/bin/python3"⟩
      ⟨false, true, false, false, true, some "/usr/bin/python3"⟩
  exact ⟨by simpa using h.2.1 rfl, by simpa using h.2.2.2 rfl⟩

/-- Splitting with maxsplit 0 returns the whole string. -/
theorem pySplitN_zero (c : Char) (s : Str) : pySplitN c 0 s = [s] := by
  cases s <;> rfl

/-- `s.split(c, 1)` when `c` does not occur: the whole string, unchanged. -/
theorem pySplitN_one_not_mem {c : Char} {s : Str} (h : c ∉ s) : pySplitN c 1 s = [s] := by
  induction s with
  | nil => rfl
  | cons x xs ih =>
      have hx : ¬x = c := fun hxc => h (hxc ▸ List.mem_cons_self x xs)
      have hxs : c ∉ xs := fun hm => h (List.mem_cons_of_mem _ hm)
      simp [pySplitN, hx, ih hxs, consHead]

/-- `s.split(c, 1)` when `c` occurs: the pieces before and after the FIRST
occurrence. -/
theorem pySplitN_one_mem {c : Char} {s : Str} (h : c ∈ s) :
    ∃ p q, pySplitN c 1 s = [p, q] ∧ s = p ++ c :: q ∧ c ∉ p := by
  induction s with
  | nil => cases h
  | cons x xs ih =>
      by_cases hx : x = c
      · subst hx
        exact ⟨[], xs, by simp [pySplitN, pySplitN_zero], rfl, by simp⟩
      · have hm : c ∈ xs := by
          rcases List.mem_cons.mp h with h1 | h1
          · exact absurd h1.symm hx
          · exact h1
        obtain ⟨p, q, h1, h2, h3⟩ := ih hm
        refine ⟨x :: p, q, by simp [pySplitN, hx, h1, consHead], by simp [h2], ?_⟩
        intro hcm
        rcases List.mem_cons.mp hcm with h4 | h4
        · exact hx h4.symm
        · exact h3 h4

/-- `s.rsplit(c, 1)` when `c` does not occur. -/
theorem pyRsplitN_one_not_mem {c : Char} {s : Str} (h : c ∉ s) : pyRsplitN c 1 s = [s] := by
  have h' : c ∉ s.reverse := by simpa using h
  simp [pyRsplitN, pySplitN_one_not_mem h']

/-- `s.rsplit(c, 1)` when `c` occurs: the pieces before and after the LAST
occurrence. -/
theorem pyRsplitN_one_mem {c : Char} {s : Str} (h : c ∈ s) :
    ∃ p q, pyRsplitN c 1 s = [p, q] ∧ s = p ++ c :: q ∧ c ∉ q := by
  have h' : c ∈ s.reverse := by simpa using h
  obtain ⟨p, q, h1, h2, h3⟩ := pySplitN_one_mem h'
  refine ⟨q.reverse, p.reverse, ?_, ?_, ?_⟩
  · simp [pyRsplitN, h1]
  · have h2' : s = (p ++ c :: q).reverse := by rw [← h2, List.reverse_reverse]
    rw [h2']
    simp
  · simpa using h3

/-- Distribute an append over the parsers' `if key-present` dict writes. -/
theorem ite_append_nil {α : Type} (b : Prop) [Decidable b] (res X : List α) :
    (if b then res else res ++ X) = res ++ (if b then [] else X) := by
  split <;> simp

/-- C2 (counterexample): on the line `"a 1:2:3-4 @r"` the code takes the
epoch from before the FIRST `:` (epoch `"1"`, version `"2:3"`), not before
the last `:` as the claim states (which would give epoch `"1:2"`,
version `"3"`). -/
theorem c2_counterexample :
    YUM_get_package_details true (pstr "a 1:2:3-4 @r")
        ≠ YUM_get_package_details_specLastColon true (pstr "a 1:2:3-4 @r")
    ∧ dget (YUM_get_package_details true (pstr "a 1:2:3-4 @r")) kEpoch
        = some (PVal.str (pstr "1"))
    ∧ dget (YUM_get_package_details_specLastColon true (pstr "a 1:2:3-4 @r")) kEpoch
        = some (PVal.str (pstr "1:2")) := by
  decide

/-- C2 (amended): for a yum line that matches the three-column pattern, the
version column splits on the FIRST `:` into epoch and remainder, the
remainder splits on the last `-` into version and release, and the name
column splits on the last `.` into package name and architecture; a
component absent from the input yields no corresponding field in the
record. -/
theorem c2_amended (line first verFull repo : Str)
    (h : yumMatch line = some (first, verFull, repo)) :
    ∃ pkg arch epoch verTail ver release,
      (('.' ∈ first → first = pkg ++ '.' :: arch ∧ '.' ∉ arch)
        ∧ ('.' ∉ first → pkg = first ∧ arch = []))
      ∧ ((':' ∈ verFull → verFull = epoch ++ ':' :: verTail ∧ ':' ∉ epoch)
        ∧ (':' ∉ verFull → epoch = [] ∧ verTail = verFull))
      ∧ (('-' ∈ verTail → verTail = ver ++ '-' :: release ∧ '-' ∉ release)
        ∧ ('-' ∉ verTail → ver = verTail ∧ release = []))
      ∧ YUM_get_package_details true line =
          [(kName, PVal.str pkg)]
            ++ (if arch = [] then [] else [(kArch, PVal.str arch)])
            ++ (if epoch = [] then [] else [(kEpoch, PVal.str epoch)])
            ++ (if release = [] then [] else [(kRelease, PVal.str release)])
            ++ [(kVersion, PVal.str ver), (kRepo, PVal.str repo)] := by
  have hy : YUM_get_package_details true line = yumDetailsCore true first verFull repo := by
    simp [YUM_get_package_details, h]
  rcases Decidable.em ('.' ∈ first) with hdot | hdot
  · obtain ⟨np, na, hna, hnb, hnc⟩ := pyRsplitN_one_mem hdot
    rcases Decidable.em (':' ∈ verFull) with hcol | hcol
    · obtain ⟨ep, vt, hea, heb, hec⟩ := pySplitN_one_mem hcol
      rcases Decidable.em ('-' ∈ vt) with hdash | hdash
      · obtain ⟨vv, rl, hva, hvb, hvc⟩ := pyRsplitN_one_mem hdash
        refine ⟨np, na, ep, vt, vv, rl, ⟨fun _ => ⟨hnb, hnc⟩, fun hc => absurd hdot hc⟩,
          ⟨fun _ => ⟨heb, hec⟩, fun hc => absurd hcol hc⟩,
          ⟨fun _ => ⟨hvb, hvc⟩, fun hc => absurd hdash hc⟩, ?_⟩
        rw [hy]
        simp [yumDetailsCore, hna, hea, hva, yumSplit2, yumEpochSplit, ite_append_nil,
          List.append_assoc]
        all_goals split_ifs <;> simp
      · refine ⟨np, na, ep, vt, vt, [], ⟨fun _ => ⟨hnb, hnc⟩, fun hc => absurd hdot hc⟩,
          ⟨fun _ => ⟨heb, hec⟩, fun hc => absurd hcol hc⟩,
          ⟨fun hc => absurd hc hdash, fun _ => ⟨rfl, rfl⟩⟩, ?_⟩
        rw [hy]
        simp [yumDetailsCore, hna, hea, pyRsplitN_one_not_mem hdash, yumSplit2,
          yumEpochSplit, ite_append_nil, List.append_assoc]
        all_goals split_ifs <;> simp
    · rcases Decidable.em ('-' ∈ verFull) with hdash | hdash
      · obtain ⟨vv, rl, hva, hvb, hvc⟩ := pyRsplitN_one_mem hdash
        refine ⟨np, na, [], verFull, vv, rl, ⟨fun _ => ⟨hnb, hnc⟩, fun hc => absurd hdot hc⟩,
          ⟨fun hc => absurd hc hcol, fun _ => ⟨rfl, rfl⟩⟩,
          ⟨fun _ => ⟨hvb, hvc⟩, fun hc => absurd hdash hc⟩, ?_⟩
        rw [hy]
        simp [yumDetailsCore, hna, pySplitN_one_not_mem hcol, hva, yumSplit2,
          yumEpochSplit, ite_append_nil, List.append_assoc]
        all_goals split_ifs <;> simp
      · refine ⟨np, na, [], verFull, verFull, [], ⟨fun _ => ⟨hnb, hnc⟩, fun hc => absurd hdot hc⟩,
          ⟨fun hc => absurd hc hcol, fun _ => ⟨rfl, rfl⟩⟩,
          ⟨fun hc => absurd hc hdash, fun _ => ⟨rfl, rfl⟩⟩, ?_⟩
        rw [hy]
        simp [yumDetailsCore, hna, pySplitN_one_not_mem hcol, pyRsplitN_one_not_mem hdash,
          yumSplit2, yumEpochSplit, ite_append_nil, List.append_assoc]
        all_goals split_ifs <;> simp
  · have hna := pyRsplitN_one_not_mem hdot
    rcases Decidable.em (':' ∈ verFull) with hcol | hcol
    · obtain ⟨ep, vt, hea, heb, hec⟩ := pySplitN_one_mem hcol
      rcases Decidable.em ('-' ∈ vt) with hdash | hdash
      · obtain ⟨vv, rl, hva, hvb, hvc⟩ := pyRsplitN_one_mem hdash
        refine ⟨first, [], ep, vt, vv, rl, ⟨fun hc => absurd hc hdot, fun _ => ⟨rfl, rfl⟩⟩,
          ⟨fun _ => ⟨heb, hec⟩, fun hc => absurd hcol hc⟩,
          ⟨fun _ => ⟨hvb, hvc⟩, fun hc => absurd hdash hc⟩, ?_⟩
        rw [hy]
        simp [yumDetailsCore, hna, hea, hva, yumSplit2, yumEpochSplit, ite_append_nil,
          List.append_assoc]
        all_goals split_ifs <;> simp
      · refine ⟨first, [], ep, vt, vt, [], ⟨fun hc => absurd hc hdot, fun _ => ⟨rfl, rfl⟩⟩,
          ⟨fun _ => ⟨heb, hec⟩, fun hc => absurd hcol hc⟩,
          ⟨fun hc => absurd hc hdash, fun _ => ⟨rfl, rfl⟩⟩, ?_⟩
        rw [hy]
        simp [yumDetailsCore, hna, hea, pyRsplitN_one_not_mem hdash, yumSplit2,
          yumEpochSplit, ite_append_nil, List.append_assoc]
        all_goals split_ifs <;> simp
    · rcases Decidable.em ('-' ∈ verFull) with hdash | hdash
      · obtain ⟨vv, rl, hva, hvb, hvc⟩ := pyRsplitN_one_mem hdash
        refine ⟨first, [], [], verFull, vv, rl, ⟨fun hc => absurd hc hdot, fun _ => ⟨rfl, rfl⟩⟩,
          ⟨fun hc => absurd hc hcol, fun _ => ⟨rfl, rfl⟩⟩,
          ⟨fun _ => ⟨hvb, hvc⟩, fun hc => absurd hdash hc⟩, ?_⟩
        rw [hy]
        simp [yumDetailsCore, hna, pySplitN_one_not_mem hcol, hva, yumSplit2,
          yumEpochSplit, ite_append_nil, List.append_assoc]
        all_goals split_ifs <;> simp
      · refine ⟨first, [], [], verFull, verFull, [],
          ⟨fun hc => absurd hc hdot, fun _ => ⟨rfl, rfl⟩⟩,
          ⟨fun hc => absurd hc hcol, fun _ => ⟨rfl, rfl⟩⟩,
          ⟨fun hc => absurd hc hdash, fun _ => ⟨rfl, rfl⟩⟩, ?_⟩
        rw [hy]
        simp [yumDetailsCore, hna, pySplitN_one_not_mem hcol, pyRsplitN_one_not_mem hdash,
          yumSplit2, yumEpochSplit, ite_append_nil, List.append_assoc]

/-- C2 (witness): the amended statement at the line
`"bash.x86_64 4.4.20-1.el8 @BaseOS"`. -/
theorem c2_amended_witness :
    ∃ pkg arch epoch verTail ver release,
      (('.' ∈ pstr "bash.x86_64" →
          pstr "bash.x86_64" = pkg ++ '.' :: arch ∧ '.' ∉ arch)
        ∧ ('.' ∉ pstr "bash.x86_64" → pkg = pstr "bash.x86_64" ∧ arch = []))
      ∧ ((':' ∈ pstr "4.4.20-1.el8" →
          pstr "4.4.20-1.el8" = epoch ++ ':' :: verTail ∧ ':' ∉ epoch)
        ∧ (':' ∉ pstr "4.4.20-1.el8" → epoch = [] ∧ verTail = pstr "4.4.20-1.el8"))
      ∧ (('-' ∈ verTail → verTail = ver ++ '-' :: release ∧ '-' ∉ release)
        ∧ ('-' ∉ verTail → ver = verTail ∧ release = []))
      ∧ YUM_get_package_details true (pstr "bash.x86_64 4.4.20-1.el8 @BaseOS") =
          [(kName, PVal.str pkg)]
            ++ (if arch = [] then [] else [(kArch, PVal.str arch)])
            ++ (if epoch = [] then [] else [(kEpoch, PVal.str epoch)])
            ++ (if release = [] then [] else [(kRelease, PVal.str release)])
            ++ [(kVersion, PVal.str ver), (kRepo, PVal.str (pstr "@BaseOS"))] :=
  c2_amended (pstr "bash.x86_64 4.4.20-1.el8 @BaseOS") (pstr "bash.x86_64")
    (pstr "4.4.20-1.el8") (pstr "@BaseOS") (by decide)

/-- `applyOutcome` never touches the attempts log. -/
theorem applyOutcome_attempts (requested : List String) (pkgmgr : String) (st : LoopState)
    (o : Outcome) : (applyOutcome requested pkgmgr st o).attempts = st.attempts := by
  cases o with
  | exnEarly => rfl
  | notAvail => rfl
  | okAvail r => cases r <;> rfl

/-- `applyOutcome` never touches the seen set. -/
theorem applyOutcome_seen (requested : List String) (pkgmgr : String) (st : LoopState)
    (o : Outcome) : (applyOutcome requested pkgmgr st o).seen = st.seen := by
  cases o with
  | exnEarly => rfl
  | notAvail => rfl
  | okAvail r => cases r <;> rfl

/-- An attempt warns exactly when its outcome is a caught error and the tag
was literally requested. -/
theorem applyOutcome_warnings (requested : List String) (pkgmgr : String) (st : LoopState)
    (o : Outcome) :
    (applyOutcome requested pkgmgr st o).warnings =
      st.warnings ++ (if outcomeWarns o = true ∧ pkgmgr ∈ requested then [pkgmgr] else []) := by
  cases o with
  | exnEarly => simp [applyOutcome, outcomeWarns, warnIf]
  | notAvail => simp [applyOutcome, outcomeWarns]
  | okAvail r => cases r <;> simp [applyOutcome, outcomeWarns, warnIf]

/-- An attempt increments `found` exactly when `is_available()` returned
true. -/
theorem applyOutcome_found (requested : List String) (pkgmgr : String) (st : LoopState)
    (o : Outcome) :
    (applyOutcome requested pkgmgr st o).found =
      st.found + (if isFound o = true then 1 else 0) := by
  cases o with
  | exnEarly => simp [applyOutcome, isFound]
  | notAvail => simp [applyOutcome, isFound]
  | okAvail r => cases r <;> simp [applyOutcome, isFound]

/-- Unfolding equation of the selection loop at a cons cell. -/
theorem selectLoop_cons (strategy : String) (requested : List String) (beh : String → Outcome)
    (pkgmgr : String) (rest : List String) (st : LoopState) :
    selectLoop strategy requested beh (pkgmgr :: rest) st =
      if st.found ≠ 0 ∧ strategy = "first" then st
      else if pkgmgr ∈ st.seen then selectLoop strategy requested beh rest st
      else selectLoop strategy requested beh rest
        (applyOutcome requested pkgmgr
          { st with seen := pkgmgr :: st.seen, attempts := st.attempts ++ [pkgmgr] }
          (beh pkgmgr)) := rfl

/-- The attempts log only grows. -/
theorem selectLoop_attempts_mono (strategy : String) (requested : List String)
    (beh : String → Outcome) :
    ∀ (ms : List String) (st : LoopState) (a : String), a ∈ st.attempts →
      a ∈ (selectLoop strategy requested beh ms st).attempts := by
  intro ms
  induction ms with
  | nil => exact fun st a ha => ha
  | cons m rest ih =>
      intro st a ha
      rw [selectLoop_cons]
      split_ifs with h1 h2
      · exact ha
      · exact ih st a ha
      · apply ih
        rw [applyOutcome_attempts]
        exact List.mem_append_left _ ha

/-- Invariant: the attempts log stays duplicate-free and inside the seen
set. -/
theorem selectLoop_nodup_inv (strategy : String) (requested : List String)
    (beh : String → Outcome) :
    ∀ (ms : List String) (st : LoopState),
      st.attempts.Nodup → (∀ a ∈ st.attempts, a ∈ st.seen) →
      (selectLoop strategy requested beh ms st).attempts.Nodup ∧
        ∀ a ∈ (selectLoop strategy requested beh ms st).attempts,
          a ∈ (selectLoop strategy requested beh ms st).seen := by
  intro ms
  induction ms with
  | nil => exact fun st h1 h2 => ⟨h1, h2⟩
  | cons m rest ih =>
      intro st h1 h2
      rw [selectLoop_cons]
      split_ifs with hbreak hseen
      · exact ⟨h1, h2⟩
      · exact ih st h1 h2
      · apply ih
        · rw [applyOutcome_attempts]
          have hm : m ∉ st.attempts := fun hmem => hseen (h2 m hmem)
          refine List.nodup_append.mpr ⟨h1, List.nodup_singleton m, ?_⟩
          intro a ha hmem
          rcases List.mem_singleton.mp hmem with rfl
          exact hseen (h2 a ha)
        · rw [applyOutcome_attempts, applyOutcome_seen]
          intro a ha
          rcases List.mem_append.mp ha with h | h
          · exact List.mem_cons_of_mem _ (h2 a h)
          · rcases List.mem_singleton.mp h with rfl
            exact List.mem_cons_self _ _

/-- Turn the loop's Prop-valued warning test into the Bool predicate used to
filter the attempts log. -/
theorem ite_prop_bool_eq (b : Bool) (P : Prop) [Decidable P] (x y : List String) :
    (if b = true ∧ P then x else y) = (if (b && decide P) = true then x else y) := by
  by_cases hb : b = true ∧ P
  · rw [if_pos hb, if_pos (by simp [hb.1, hb.2])]
  · rw [if_neg hb, if_neg (by simpa [Bool.and_eq_true, decide_eq_true_eq] using hb)]

/-- Invariant: the warnings are exactly the attempted tags whose outcome was
a caught error and which were literally requested. -/
theorem selectLoop_warnings_inv (strategy : String) (requested : List String)
    (beh : String → Outcome) :
    ∀ (ms : List String) (st : LoopState),
      st.warnings =
        st.attempts.filter (fun m => outcomeWarns (beh m) && decide (m ∈ requested)) →
      (selectLoop strategy requested beh ms st).warnings =
        (selectLoop strategy requested beh ms st).attempts.filter
          (fun m => outcomeWarns (beh m) && decide (m ∈ requested)) := by
  intro ms
  induction ms with
  | nil => exact fun st h => h
  | cons m rest ih =>
      intro st h
      rw [selectLoop_cons]
      split_ifs with hbreak hseen
      · exact h
      · exact ih st h
      · apply ih
        rw [applyOutcome_warnings, applyOutcome_attempts]
        show st.warnings ++ _ = List.filter _ (st.attempts ++ [m])
        rw [List.filter_append, ← h]
        congr 1
        rw [List.filter_cons, List.filter_nil]
        exact ite_prop_bool_eq (outcomeWarns (beh m)) (m ∈ requested) [m] []

/-- As long as no backend reports availability, the loop never breaks: every
candidate gets attempted (under either strategy), errors included. -/
theorem selectLoop_all_attempted (strategy : String) (requested : List String)
    (beh : String → Outcome) :
    ∀ (ms : List String) (st : LoopState),
      (∀ m ∈ ms, isFound (beh m) = false) → st.found = 0 →
      (∀ a ∈ st.seen, a ∈ st.attempts) →
      ∀ m ∈ ms, m ∈ (selectLoop strategy requested beh ms st).attempts := by
  intro ms
  induction ms with
  | nil => intro st _ _ _ m hm; cases hm
  | cons m0 rest ih =>
      intro st hnf hf hsa m hm
      rw [selectLoop_cons]
      have hbreak : ¬(st.found ≠ 0 ∧ strategy = "first") := fun hc => hc.1 hf
      rw [if_neg hbreak]
      by_cases hseen : m0 ∈ st.seen
      · rw [if_pos hseen]
        rcases List.mem_cons.mp hm with rfl | hm'
        · exact selectLoop_attempts_mono strategy requested beh rest st m (hsa m hseen)
        · exact ih st (fun x hx => hnf x (List.mem_cons_of_mem _ hx)) hf hsa m hm'
      · rw [if_neg hseen]
        have hfound' :
            (applyOutcome requested m0
              { st with seen := m0 :: st.seen, attempts := st.attempts ++ [m0] }
              (beh m0)).found = 0 := by
          rw [applyOutcome_found]
          simp [hnf m0 (List.mem_cons_self _ _), hf]
        have hsa' :
            ∀ a ∈ (applyOutcome requested m0
                { st with seen := m0 :: st.seen, attempts := st.attempts ++ [m0] }
                (beh m0)).seen,
              a ∈ (applyOutcome requested m0
                { st with seen := m0 :: st.seen, attempts := st.attempts ++ [m0] }
                (beh m0)).attempts := by
          rw [applyOutcome_seen, applyOutcome_attempts]
          intro a ha
          rcases List.mem_cons.mp ha with rfl | ha'
          · exact List.mem_append_right _ (List.mem_singleton_self a)
          · exact List.mem_append_left _ (hsa a ha')
        rcases List.mem_cons.mp hm with rfl | hm'
        · apply selectLoop_attempts_mono
          rw [applyOutcome_attempts]
          exact List.mem_append_right _ (List.mem_singleton_self m)
        · exact ih _ (fun x hx => hnf x (List.mem_cons_of_mem _ hx)) hfound' hsa' m hm'

/-- C6: each backend tag is attempted at most once per run — whatever the
requested list (duplicates included), the strategy, or what the backends do,
the loop's attempts log is duplicate-free. -/
theorem c6_attempt_once (known params : List String) (strategy : String)
    (aa nd : Bool) (beh : String → Outcome) :
    (mainRun known params strategy aa nd beh).2.attempts.Nodup := by
  simp only [mainRun]
  split
  · simp [initLoopState]
  · split
    · exact (selectLoop_nodup_inv strategy params beh _ initLoopState
        (by simp [initLoopState]) (by simp [initLoopState])).1
    · exact (selectLoop_nodup_inv strategy params beh _ initLoopState
        (by simp [initLoopState]) (by simp [initLoopState])).1

/-- C7: per-backend error policy of the selection engine.  (1) The warnings
emitted by the loop are exactly the attempted tags whose backend raised and
which appear literally in the originally requested manager list — errors
reached via `auto` expansion warn nothing, and every error is caught.
(2) While no backend reports availability, iteration continues past every
failure: each candidate is attempted.  (3) For a validated request the run
as a whole fails exactly when the count of succeeded backends is zero. -/
theorem c7_error_policy (known params : List String) (strategy : String) (aa nd : Bool)
    (beh : String → Outcome) :
    ((mainRun known params strategy aa nd beh).2.warnings =
        (mainRun known params strategy aa nd beh).2.attempts.filter
          (fun m => outcomeWarns (beh m) && decide (m ∈ params)))
    ∧ (computeUnsupported known params = [] →
        (∀ m ∈ mainCandidates known params strategy, isFound (beh m) = false) →
        ∀ m ∈ mainCandidates known params strategy,
          m ∈ (mainRun known params strategy aa nd beh).2.attempts)
    ∧ (computeUnsupported known params = [] →
        ((∃ msg, (mainRun known params strategy aa nd beh).1 = MainOutcome.failed msg) ↔
          (mainRun known params strategy aa nd beh).2.found = 0)) := by
  refine ⟨?_, ?_, ?_⟩
  · simp only [mainRun]
    split
    · simp [initLoopState]
    · split
      · exact selectLoop_warnings_inv strategy params beh _ initLoopState
          (by simp [initLoopState])
      · exact selectLoop_warnings_inv strategy params beh _ initLoopState
          (by simp [initLoopState])
  · intro hval hnf m hm
    simp only [mainRun]
    rw [if_neg (by simp [hval])]
    split
    · exact selectLoop_all_attempted strategy params beh _ initLoopState hnf rfl
        (by simp [initLoopState]) m hm
    · exact selectLoop_all_attempted strategy params beh _ initLoopState hnf rfl
        (by simp [initLoopState]) m hm
  · intro hval
    simp only [mainRun]
    rw [if_neg (by simp [hval])]
    by_cases h :
        (selectLoop strategy params beh (mainCandidates known params strategy)
          initLoopState).found = 0
    · rw [if_pos h]
      exact ⟨fun _ => h, fun _ => ⟨_, rfl⟩⟩
    · rw [if_neg h]
      constructor
      · rintro ⟨msg, hmsg⟩
        cases hmsg
      · intro h0
        exact absurd h0 h

/-- C7 (witness): with only `apt` requested and a backend that always
raises, `apt` is attempted, and the failure of the run is equivalent to a
zero success count. -/
theorem c7_error_policy_witness :
    "apt" ∈ (mainRun packageManagerNames ["apt"] "first" false true
        (fun _ => Outcome.exnEarly)).2.attempts
    ∧ ((∃ msg, (mainRun packageManagerNames ["apt"] "first" false true
          (fun _ => Outcome.exnEarly)).1 = MainOutcome.failed msg) ↔
        (mainRun packageManagerNames ["apt"] "first" false true
          (fun _ => Outcome.exnEarly)).2.found = 0)
    ∧ (mainRun packageManagerNames ["apt"] "first" false true
        (fun _ => Outcome.exnEarly)).2.warnings =
      (mainRun packageManagerNames ["apt"] "first" false true
        (fun _ => Outcome.exnEarly)).2.attempts.filter
          (fun m => outcomeWarns ((fun _ => Outcome.exnEarly) m) && decide (m ∈ ["apt"])) := by
  have h := c7_error_policy packageManagerNames ["apt"] "first" false true
      (fun _ => Outcome.exnEarly)
  exact ⟨h.2.1 (by decide) (by decide) "apt" (by decide), h.2.2 (by decide), h.1⟩

/-- C8: a requested tag outside the known set makes the run fail before any
backend is attempted (the attempts log stays empty and the result does not
depend on the backends at all); the message lists the unsupported tags,
unless `auto` was among the originally requested managers, in which case it
is the could-not-auto-detect message. -/
theorem c8_unsupported (known params : List String) (strategy : String) (aa nd : Bool)
    (beh : String → Outcome) (h : computeUnsupported known params ≠ []) :
    (mainRun known params strategy aa nd beh).1 =
        MainOutcome.failed
          (if "auto" ∈ params then autoDetectFailMsg
           else unsupportedMsg (computeUnsupported known params))
    ∧ (mainRun known params strategy aa nd beh).2.attempts = []
    ∧ ∀ beh' : String → Outcome,
        mainRun known params strategy aa nd beh = mainRun known params strategy aa nd beh' := by
  refine ⟨?_, ?_, fun beh' => ?_⟩
  · simp only [mainRun]
    rw [if_pos h]
  · simp only [mainRun]
    rw [if_pos h]
    rfl
  · simp only [mainRun]
    rw [if_pos h, if_pos h]

/-- C8 (witness): requesting the unknown tag `zypper` fails with the message
naming it and an empty attempts log; requesting `auto` alongside it fails
with the auto-detect message. -/
theorem c8_unsupported_witness :
    (mainRun packageManagerNames ["zypper"] "first" false true (fun _ => Outcome.notAvail)).1
        = MainOutcome.failed (unsupportedMsg ["zypper"])
    ∧ (mainRun packageManagerNames ["zypper"] "first" false true
        (fun _ => Outcome.notAvail)).2.attempts = []
    ∧ (mainRun packageManagerNames ["auto", "zypper"] "first" false true
        (fun _ => Outcome.notAvail)).1 = MainOutcome.failed autoDetectFailMsg := by
  have h1 := c8_unsupported packageManagerNames ["zypper"] "first" false true
      (fun _ => Outcome.notAvail) (by decide)
  have h2 := c8_unsupported packageManagerNames ["auto", "zypper"] "first" false true
      (fun _ => Outcome.notAvail) (by decide)
  refine ⟨?_, h1.2.1, ?_⟩
  · rw [h1.1]
    decide
  · rw [h2.1]
    decide

/-- A raising entry anywhere in the listing aborts the whole catalog build. -/
theorem get_packages_error_of_mem (tag : Str) (details : Str → Except Unit (Dict PVal)) :
    ∀ (entries : List Str) (init : Catalog) (p : Str), p ∈ entries →
      details p = Except.error () →
      entries.foldlM (get_packages_step tag details) init = Except.error () := by
  intro entries
  induction entries with
  | nil => intro init p hp; cases hp
  | cons a es ih =>
      intro init p hp herr
      rw [List.foldlM_cons]
      rcases List.mem_cons.mp hp with rfl | hp'
      · have hstep : get_packages_step tag details init p = Except.error () := by
          unfold get_packages_step
          rw [herr]
          rfl
        rw [hstep]
        rfl
      · cases hstep : get_packages_step tag details init a with
        | error e =>
            cases e
            rfl
        | ok s =>
            exact ih s p hp' herr

/-- C10: the pacman entry parser is total only when the first line of the
info block matches the `Key : Value` shape — with an unmatched first line it
raises (the `raw_pkg_details[None]` lookup) instead of returning a record,
and that exception aborts the whole backend's catalog build rather than
skipping the entry. -/
theorem c10_pacman_raises (nd aa : Bool) (package l : Str) (rest : List Str)
    (h1 : pySplitlines package = l :: rest) (h2 : pacmanLineMatch l = Option.none) :
    PACMAN_get_package_details nd aa package = Except.error ()
    ∧ ∀ entries : List Str, package ∈ entries →
        get_packages (pstr "pacman") (PACMAN_get_package_details nd aa) entries
          = Except.error () := by
  have hfold : pacmanFold (pySplitlines package) [] Option.none = Except.error () := by
    rw [h1]
    simp [pacmanFold, h2]
  have hparse : PACMAN_get_package_details nd aa package = Except.error () := by
    unfold PACMAN_get_package_details
    rw [hfold]
    rfl
  exact ⟨hparse, fun entries hmem =>
    get_packages_error_of_mem (pstr "pacman") (PACMAN_get_package_details nd aa)
      entries [] package hmem hparse⟩

/-- C10 (witness): the one-line block `"garbage"` (no `Key : Value` shape)
makes the parser raise and the whole pacman listing fail. -/
theorem c10_pacman_raises_witness :
    PACMAN_get_package_details true false (pstr "garbage") = Except.error ()
    ∧ get_packages (pstr "pacman") (PACMAN_get_package_details true false) [pstr "garbage"]
        = Except.error () := by
  have h := c10_pacman_raises true false (pstr "garbage") (pstr "garbage") []
      (by decide) (by decide)
  exact ⟨h.1, h.2 [pstr "garbage"] (by decide)⟩
